import Mathlib

/-!
# Verification of the semantic-video job orchestration core

Shallow embedding of the Go daemon in `internal/daemon` (models.go,
handlers_folders.go, part_008/handleVideos): the in-memory registry of
videos, jobs and folders, the job scheduler state machine
(startJob / cancelJob / runJob / indexFrames / completeJob / failJob /
markJobCancelled / refreshJobProgress / markFrameUploaded /
updateProgressLocked) and the registration handlers.

Modelling conventions:
* Go maps become association lists over `String` keys; `mset` replaces the
  binding for a key (like a Go map assignment), `mlookup` reads it.
* `float64` progress values are modelled as exact rationals; Go's
  `math.Nextafter(1, 0)` is the largest double below one, `1 - 2⁻⁵³`.
* `time.Now()` timestamps are passed in as `Nat` parameters.
* Filesystem reads (`countExtractedFrames`, `listFrameFiles`) are passed in
  as parameters: the code uses whatever count/list the directory yields.
  The filesystem itself is a map from directory path to file list, enough
  to express `os.RemoveAll` / `os.MkdirAll` effects of `runJob`.
* The random identifier generator (`newID`) is a collaborator whose
  contract is global uniqueness; identifiers are therefore explicit
  arguments, and freshness appears as a hypothesis where a transition
  relies on the generator's uniqueness contract.
* The external extraction engine and vectordb collaborator are oracles:
  per-frame upload results and cancellation observations are functions
  given to the indexing loop.
-/

namespace SemanticVideo

/-! ## Association-list model of Go string maps -/

def mlookup {α : Type} : List (String × α) → String → Option α
  | [], _ => none
  | p :: rest, k => if p.1 = k then some p.2 else mlookup rest k

/-- Go map assignment `m[k] = v`: the key gets exactly one binding. -/
def mset {α : Type} (m : List (String × α)) (k : String) (v : α) :
    List (String × α) :=
  (k, v) :: m.filter (fun p => !(p.1 == k))

/-! ## Data model (models.go) -/

/-- `Video` from models.go: a tracked media asset. -/
structure Video where
  id : String
  path : String
  durationSeconds : Int
  indexStatus : String
  framesExtracted : Int
  framesUploaded : Int
  totalFramesExpected : Int
  lastIndexedAt : Option Nat
  lastError : Option String
deriving DecidableEq, Repr

/-- `Job` from models.go (field `Type` is `jobType` here). -/
structure Job where
  id : String
  videoID : String
  jobType : String
  status : String
  progress : ℚ
  createdAt : Nat
  updatedAt : Nat
deriving DecidableEq, Repr

/-- `Folder` from models.go. -/
structure Folder where
  id : String
  path : String
  recursive : Bool
  status : String
deriving DecidableEq, Repr

structure CloudStatusM where
  userID : String
  connected : Bool
  lastSuccessfulUpload : Option Nat
  pendingBatches : Int
deriving DecidableEq, Repr

structure CloudStateM where
  accessToken : String
  status : CloudStatusM
deriving DecidableEq, Repr

/-- The fields of `Config` the scheduler reads. -/
structure ConfigM where
  frameRate : ℚ
  frameSize : Int × Int
  uploadBatchSize : Int
deriving DecidableEq, Repr

/-- The `Server` struct's in-memory state (server.go). `jobCancel` keeps the
ids of jobs whose cancellation channel is still registered. -/
structure ServerState where
  config : ConfigM
  folders : List (String × Folder)
  videos : List (String × Video)
  jobs : List (String × Job)
  jobCancel : List String
  folderByPath : List (String × String)
  videoByPath : List (String × String)
  cloud : CloudStateM
  framesRoot : String
deriving DecidableEq, Repr

def initialConfig : ConfigM :=
  { frameRate := 1, frameSize := (400, 400), uploadBatchSize := 50 }

/-- `NewServer()` with the default frames root. -/
def initialState : ServerState :=
  { config := initialConfig
    folders := []
    videos := []
    jobs := []
    jobCancel := []
    folderByPath := []
    videoByPath := []
    cloud :=
      { accessToken := ""
        status :=
          { userID := "user_123", connected := false
            lastSuccessfulUpload := none, pendingBatches := 0 } }
    framesRoot := "frames" }

/-! ## Path helpers (Go `path/filepath` on slash-separated paths) -/

/-- `filepath.Base`: strip trailing slashes, then keep the last element. -/
def pathBase (p : String) : String :=
  if p = "" then "."
  else
    let cs := p.toList.reverse.dropWhile (fun c => c = '/')
    if cs = [] then "/"
    else String.mk (cs.takeWhile (fun c => !(c = '/'))).reverse

/-- Helper for `pathExt`: walks the reversed path, collecting the reversed
extension up to and including the last dot of the final element. -/
def extRevAux (acc : List Char) : List Char → List Char
  | [] => []
  | c :: rest =>
    if c = '/' then []
    else if c = '.' then acc.concat c
    else extRevAux (acc.concat c) rest

/-- `filepath.Ext`: the suffix beginning at the final dot in the final
element; empty when there is no dot. -/
def pathExt (p : String) : String :=
  String.mk (extRevAux [] p.toList.reverse).reverse

/-- `strings.TrimSuffix` (on character lists). -/
def trimSuffix (str suffix : String) : String :=
  if suffix.toList.isSuffixOf str.toList then
    String.mk (str.toList.take (str.toList.length - suffix.toList.length))
  else str

/-- `framesDirForVideo` from models.go: frames root joined with the source
filename minus its extension (`filepath.Join` modelled as slash concat for
a clean relative root). -/
def framesDirForVideo (framesRoot videoPath : String) : String :=
  let base := pathBase videoPath
  let name := trimSuffix base (pathExt base)
  framesRoot ++ "/" ++ name

/-- ASCII whitespace, for the `strings.TrimSpace` model. -/
def isSpaceChar (c : Char) : Bool :=
  c = ' ' || c = '\t' || c = '\n' || c = '\r' || c = '\x0b' || c = '\x0c'

/-- Go's `strings.TrimSpace` (ASCII whitespace suffices here). -/
def trimSpace (s : String) : String :=
  String.mk (((s.toList.dropWhile isSpaceChar).reverse.dropWhile isSpaceChar).reverse)

/-! ## Filesystem effects of runJob -/

/-- Directories with their file lists, enough for RemoveAll / MkdirAll. -/
abbrev FileSys := List (String × List String)

/-- `os.RemoveAll(dir)`: the directory (and its files) disappears. -/
def removeAll (fs : FileSys) (dir : String) : FileSys :=
  fs.filter (fun p => !(p.1 == dir))

/-- `os.MkdirAll(dir, 0o755)`: creates the directory when absent. -/
def mkdirAll (fs : FileSys) (dir : String) : FileSys :=
  match mlookup fs dir with
  | some _ => fs
  | none => (dir, []) :: fs

/-! ## Progress formula -/

/-- `math.Nextafter(1, 0)` for float64: the largest double below `1`,
which is `1 - 2⁻⁵³`. -/
def nextafterOne : ℚ := mkRat (2 ^ 53 - 1) (2 ^ 53)

/-- Ceiling of the fraction `n / d` for a positive denominator `d`. -/
def ceilND (n : Int) (d : Nat) : Int := Int.fdiv (n + d - 1) d

/-- `estimateFrames` from models.go: `int(math.Ceil(duration * rate))`.
The exact rational `duration * rate` is `(duration * rate.num) / rate.den`,
whose ceiling `ceilND` takes directly. -/
def estimateFrames (cfg : ConfigM) (video : Video) : Int :=
  ceilND (video.durationSeconds * cfg.frameRate.num) cfg.frameRate.den

/-- The Go pattern `if v.FramesExtracted < n { v.FramesExtracted = n }`. -/
def raiseExtracted (v : Video) (n : Int) : Video :=
  if v.framesExtracted < n then { v with framesExtracted := n } else v

/-- The Go pattern `if v.TotalFramesExpected < n { ... = n }`. -/
def raiseTFE (v : Video) (n : Int) : Video :=
  if v.totalFramesExpected < n then { v with totalFramesExpected := n } else v

/-- The Go pattern `if v.FramesUploaded < n { ... = n }`. -/
def raiseUploaded (v : Video) (n : Int) : Video :=
  if v.framesUploaded < n then { v with framesUploaded := n } else v

/-- The phase-boundary assignment at the start of `indexFrames`. -/
def phaseVideo (video : Video) (total : Int) : Video :=
  { video with indexStatus := "indexing", framesUploaded := 0
               framesExtracted := total, totalFramesExpected := total }

/-- The opening `expected` computation of `updateProgressLocked`: the
divisor, and the video with `TotalFramesExpected` backfilled when it was
not positive. -/
def updateExpected (video : Video) : Int × Video :=
  if video.totalFramesExpected ≤ 0 then
    let e : Int := if video.framesUploaded ≤ 0 then 1 else video.framesUploaded
    (e, { video with totalFramesExpected := e })
  else (video.totalFramesExpected, video)

/-- `float64(video.FramesUploaded) / float64(expected)`: the divisor is
positive in both `updateExpected` branches, and for a positive denominator
`mkRat a b.toNat` is exact division. -/
def progressOf (video : Video) : ℚ :=
  mkRat (updateExpected video).2.framesUploaded (updateExpected video).1.toNat

/-- `updateProgressLocked` from models.go. The Go function takes pointers;
here it returns the updated video and job. Call sites always pass a non-nil
job, so the `job == nil` branches collapse. -/
def updateProgressLocked (video : Video) (job : Job) (clamp : Bool) :
    Video × Job :=
  let progress : ℚ := progressOf video
  let progress : ℚ :=
    if clamp = true ∧ 1 ≤ progress ∧ job.status ≠ "done" then nextafterOne
    else progress
  let job := if job.progress < progress then { job with progress := progress } else job
  ((updateExpected video).2, job)

/-! ## Scheduler operations (models.go) -/

/-- `startJob`: resets the video's counters, creates a fresh queued job and
registers its cancellation channel. `jobID` stands for `newID("job_")`. -/
def startJob (s : ServerState) (videoID : String) (reindex : Bool)
    (now : Nat) (jobID : String) : Option Job × ServerState :=
  match mlookup s.videos videoID with
  | none => (none, s)
  | some video =>
    let video :=
      if reindex then
        { video with framesExtracted := 0, framesUploaded := 0
                     totalFramesExpected := 0, indexStatus := "pending"
                     lastError := none }
      else video
    let video :=
      { video with framesExtracted := 0, framesUploaded := 0
                   totalFramesExpected := 0, indexStatus := "extracting"
                   lastError := none }
    let job : Job :=
      { id := jobID, videoID := videoID, jobType := "extract_and_upload"
        status := "queued", progress := 0, createdAt := now, updatedAt := now }
    (some job,
     { s with videos := mset s.videos videoID video
              jobs := mset s.jobs jobID job
              jobCancel := jobID :: s.jobCancel })

/-- The `range` probe of `cancelJob`: an active job for this video. -/
def isActiveFor (videoID : String) (j : Job) : Bool :=
  j.videoID == videoID && (j.status == "running" || j.status == "queued")

/-- `cancelJob`: finds an active job for the video, consumes its
cancellation channel, marks job and video failed with "cancelled";
`NotFound` (and no state change) when no active job exists. -/
def cancelJob (s : ServerState) (videoID : String) (now : Nat) :
    Except Unit Unit × ServerState :=
  match s.jobs.find? (fun p => isActiveFor videoID p.2) with
  | none => (Except.error (), s)
  | some (jobID, job) =>
    let job2 := { job with status := "failed", updatedAt := now }
    let videos :=
      match mlookup s.videos videoID with
      | some v =>
        mset s.videos videoID
          { v with indexStatus := "failed", lastError := some "cancelled" }
      | none => s.videos
    (Except.ok (),
     { s with jobs := mset s.jobs jobID job2
              videos := videos
              jobCancel := s.jobCancel.filter (fun id => !(id == jobID)) })

/-- `completeJob`: terminal success. In Go the video is read without an
ok-check (a nil dereference if absent); the video always exists at the call
site, so the missing-video branch leaves the state unchanged here. -/
def completeJob (s : ServerState) (jobID : String) (now : Nat) : ServerState :=
  match mlookup s.jobs jobID with
  | none => s
  | some job =>
    match mlookup s.videos job.videoID with
    | none => s
    | some video =>
      let video := raiseExtracted video video.framesUploaded
      let video := raiseTFE video video.framesUploaded
      let job2 := { job with status := "done", progress := 1, updatedAt := now }
      let video :=
        { video with indexStatus := "indexed", lastError := none
                     lastIndexedAt := some now }
      let cloud :=
        { s.cloud with
            status :=
              { s.cloud.status with
                  connected := s.cloud.accessToken != ""
                  pendingBatches := 0
                  lastSuccessfulUpload := some now } }
      { s with jobs := mset s.jobs jobID job2
               videos := mset s.videos job.videoID video
               cloud := cloud }

/-- `failJob`: terminal failure with an error message. -/
def failJob (s : ServerState) (jobID msg : String) (now : Nat) : ServerState :=
  match mlookup s.jobs jobID with
  | none => s
  | some job =>
    let job2 := { job with status := "failed", progress := 0, updatedAt := now }
    let videos :=
      match mlookup s.videos job.videoID with
      | some v =>
        mset s.videos job.videoID
          { v with indexStatus := "failed", lastError := some msg }
      | none => s.videos
    { s with jobs := mset s.jobs jobID job2, videos := videos }

/-- `markJobCancelled`: like `failJob` with the sentinel "cancelled". -/
def markJobCancelled (s : ServerState) (jobID : String) (now : Nat) :
    ServerState :=
  match mlookup s.jobs jobID with
  | none => s
  | some job =>
    let job2 := { job with status := "failed", progress := 0, updatedAt := now }
    let videos :=
      match mlookup s.videos job.videoID with
      | some v =>
        mset s.videos job.videoID
          { v with indexStatus := "failed", lastError := some "cancelled" }
      | none => s.videos
    { s with jobs := mset s.jobs jobID job2, videos := videos }

/-- `refreshJobProgress`: a ticker tick. `frames` is what
`countExtractedFrames(framesDir)` returned for this tick (the success
case; an enumeration error makes runJob call `failJob` instead). In Go a
missing video would be a nil dereference; it is a no-op here. -/
def refreshJobProgress (s : ServerState) (jobID : String) (frames : Int)
    (now : Nat) : ServerState :=
  match mlookup s.jobs jobID with
  | none => s
  | some job =>
    match mlookup s.videos job.videoID with
    | none => s
    | some video =>
      let video := raiseExtracted video frames
      let video := raiseTFE video frames
      let vj := updateProgressLocked video job true
      let job2 := { vj.2 with updatedAt := now }
      let video2 := { vj.1 with indexStatus := "extracting" }
      { s with jobs := mset s.jobs jobID job2
               videos := mset s.videos job.videoID video2 }

/-- The phase-boundary mutation at the start of `indexFrames`: `total` is
`len(framePaths)`. In Go both map reads are unchecked (nil dereference if
absent); no-ops here. -/
def indexFramesPhase (s : ServerState) (jobID : String) (total : Int) :
    ServerState :=
  match mlookup s.jobs jobID with
  | none => s
  | some job =>
    match mlookup s.videos job.videoID with
    | none => s
    | some video =>
      let vj := updateProgressLocked (phaseVideo video total) job true
      { s with jobs := mset s.jobs jobID vj.2
               videos := mset s.videos job.videoID vj.1 }

/-- `markFrameUploaded` from models.go. -/
def markFrameUploaded (s : ServerState) (jobID : String)
    (uploaded total : Int) (now : Nat) : ServerState :=
  match mlookup s.jobs jobID with
  | none => s
  | some job =>
    match mlookup s.videos job.videoID with
    | none => s
    | some video =>
      let video := raiseUploaded video uploaded
      let video := raiseTFE video total
      let video := raiseExtracted video total
      let vj := updateProgressLocked video job true
      let job2 := { vj.2 with updatedAt := now }
      let video2 := { vj.1 with indexStatus := "indexing" }
      { s with jobs := mset s.jobs jobID job2
               videos := mset s.videos job.videoID video2 }

/-- Result of the indexing loop. -/
inductive IndexOutcome
  | ok
  | canceled
  | failed (msg : String)
deriving DecidableEq, Repr

/-- The per-frame loop of `indexFrames`. `i` is the zero-based index of the
next frame; `cancelAt i` is whether the closed-channel check before frame
`i` fires; `uploadErr m` is the vectordb collaborator's answer for 1-based
frame `m` (`none` = success). Besides the outcome it returns the 1-based
numbers of frames for which an upload was attempted, and the final state. -/
def uploadFrames (s : ServerState) (jobID : String) (rest : List String)
    (i total : Nat) (cancelAt : Nat → Bool) (uploadErr : Nat → Option String)
    (now : Nat) : IndexOutcome × List Nat × ServerState :=
  match rest with
  | [] => (IndexOutcome.ok, [], s)
  | _ :: rest2 =>
    if cancelAt i then (IndexOutcome.canceled, [], s)
    else
      match uploadErr (i + 1) with
      | some msg => (IndexOutcome.failed msg, [i + 1], s)
      | none =>
        let s2 := markFrameUploaded s jobID ((i + 1 : Nat) : Int)
          ((total : Nat) : Int) now
        let r := uploadFrames s2 jobID rest2 (i + 1) total cancelAt uploadErr now
        (r.1, (i + 1) :: r.2.1, r.2.2)

/-- `indexFrames` from models.go: `framePaths` is what
`listFrameFiles(framesDir)` returned (sorted). The vectordb client is
configured (otherwise the whole function fails before mutating). -/
def indexFrames (s : ServerState) (jobID : String) (framePaths : List String)
    (cancelAt : Nat → Bool) (uploadErr : Nat → Option String) (now : Nat) :
    IndexOutcome × List Nat × ServerState :=
  if framePaths.length = 0 then (IndexOutcome.failed "no frames extracted", [], s)
  else
    let s2 := indexFramesPhase s jobID ((framePaths.length : Nat) : Int)
    uploadFrames s2 jobID framePaths 0 framePaths.length cancelAt uploadErr now

/-- The `errCh` branch of `runJob`'s select with extraction succeeded:
dispatches on the `indexFrames` result exactly as models.go does. -/
def runJobOnExtractSuccess (s : ServerState) (jobID : String)
    (framePaths : List String) (cancelAt : Nat → Bool)
    (uploadErr : Nat → Option String) (now : Nat) :
    IndexOutcome × List Nat × ServerState :=
  match indexFrames s jobID framePaths cancelAt uploadErr now with
  | (IndexOutcome.canceled, att, s2) =>
    (IndexOutcome.canceled, att, markJobCancelled s2 jobID now)
  | (IndexOutcome.failed msg, att, s2) =>
    (IndexOutcome.failed msg, att, failJob s2 jobID ("index frames: " ++ msg) now)
  | (IndexOutcome.ok, att, s2) =>
    (IndexOutcome.ok, att, completeJob s2 jobID now)

/-- The start of the background task `runJob`, up to launching extraction:
the locked section (estimate, mark running/extracting) followed by
`os.MkdirAll(framesRoot)` and `os.RemoveAll(framesDir)`. Returns the new
registry state and the new filesystem state. -/
def runJobPrepare (s : ServerState) (fs : FileSys) (jobID : String)
    (now : Nat) : ServerState × FileSys :=
  match mlookup s.jobs jobID with
  | none => (s, fs)
  | some job =>
    match mlookup s.videos job.videoID with
    | none => (s, fs)
    | some video =>
      let framesDir := framesDirForVideo s.framesRoot video.path
      let expected : Int :=
        if video.totalFramesExpected = 0 then estimateFrames s.config video
        else video.totalFramesExpected
      let expected : Int := if expected ≤ 0 then 1 else expected
      let video2 :=
        { video with totalFramesExpected := expected
                     indexStatus := "extracting", lastError := none }
      let job2 := { job with status := "running", progress := 0, updatedAt := now }
      let s2 : ServerState :=
        { s with jobs := mset s.jobs jobID job2
                 videos := mset s.videos job.videoID video2 }
      let fs := mkdirAll fs s2.framesRoot
      let fs := removeAll fs framesDir
      (s2, fs)

/-! ## Registration (handlers_folders.go, part_008 handleVideos) -/

/-- `addVideoPath` from handlers_folders.go: register a video by path,
idempotent by path. `videoID` stands for `newID("vid_")`. Returns the id,
whether the path already existed, and the new state. -/
def addVideoPath (s : ServerState) (path : String) (videoID : String) :
    String × Bool × ServerState :=
  match mlookup s.videoByPath path with
  | some id => (id, true, s)
  | none =>
    let video : Video :=
      { id := videoID, path := path, durationSeconds := 0
        indexStatus := "pending", framesExtracted := 0, framesUploaded := 0
        totalFramesExpected := 0, lastIndexedAt := none, lastError := none }
    (videoID, false,
     { s with videos := mset s.videos videoID video
              videoByPath := mset s.videoByPath path videoID })

/-- Outcome of the POST /folders handler. `scanLaunched` records whether a
background `scanFolderAndIndex` goroutine was started. -/
inductive RegisterFolderResult
  | badRequest
  | ok (folderID status : String) (scanLaunched : Bool)
deriving DecidableEq, Repr

/-- The POST branch of `handleFolders` (handlers_folders.go): validation,
dedup by path, folder creation in "scanning" and the scan launch.
`folderID` stands for `newID("fld_")`. The already-exists branch answers
with the stored folder's ID (zero-value `""` if the record were missing,
as a Go map read of a value type). -/
def registerFolder (s : ServerState) (path : String) (recursive : Bool)
    (folderID : String) : RegisterFolderResult × ServerState :=
  if trimSpace path = "" then (RegisterFolderResult.badRequest, s)
  else
    match mlookup s.folderByPath path with
    | some id =>
      let existingID :=
        match mlookup s.folders id with
        | some f => f.id
        | none => ""
      (RegisterFolderResult.ok existingID "already_exists" false, s)
    | none =>
      let folder : Folder :=
        { id := folderID, path := path, recursive := recursive
          status := "scanning" }
      (RegisterFolderResult.ok folderID "scanning" true,
       { s with folders := mset s.folders folderID folder
                folderByPath := mset s.folderByPath path folderID })

/-- `scanFolderAndIndex`'s folder status updates ("error" / "scanned"). -/
def setFolderStatus (s : ServerState) (folderID st : String) : ServerState :=
  match mlookup s.folders folderID with
  | none => s
  | some f =>
    { s with folders := mset s.folders folderID { f with status := st } }

/-- The deferred `delete(s.jobCancel, jobID)` at the end of `runJob`. -/
def dropCancelHandle (s : ServerState) (jobID : String) : ServerState :=
  { s with jobCancel := s.jobCancel.filter (fun id => !(id == jobID)) }

/-- Number of live (queued/running) jobs recorded for a video. -/
def countActiveJobs (s : ServerState) (videoID : String) : Nat :=
  (s.jobs.filter (fun p => isActiveFor videoID p.2)).length

/-! ## Accessors for handler results -/

/-- Folder id carried by a POST /folders response. -/
def folderIDOf : RegisterFolderResult → String
  | RegisterFolderResult.badRequest => ""
  | RegisterFolderResult.ok fid _ _ => fid

/-! ## Transition relation of the daemon

One constructor per registry mutation in the source. Constructor
hypotheses record only facts guaranteed at the mutation's unique call
site: `startJob` uses the identifier generator's global-uniqueness
contract; `runJob`'s opening section runs once per job, directly after
`startJob` created that job with progress `0`; `markFrameUploaded` is
called with `uploaded = i+1 ≤ total = len(framePaths)`. -/
inductive Step : ServerState → ServerState → Prop
  | addVideo (s : ServerState) (path videoID : String) :
      Step s (addVideoPath s path videoID).2.2
  | registerFolderStep (s : ServerState) (path : String) (recursive : Bool)
      (folderID : String) :
      Step s (registerFolder s path recursive folderID).2
  | folderStatus (s : ServerState) (folderID st : String) :
      Step s (setFolderStatus s folderID st)
  | startJobStep (s : ServerState) (videoID : String) (reindex : Bool)
      (now : Nat) (jobID : String)
      (hfresh : mlookup s.jobs jobID = none) :
      Step s (startJob s videoID reindex now jobID).2
  | cancelJobStep (s : ServerState) (videoID : String) (now : Nat) :
      Step s (cancelJob s videoID now).2
  | runJobPrepareStep (s : ServerState) (fs : FileSys) (jobID : String)
      (now : Nat)
      (hzero : (mlookup s.jobs jobID).map Job.progress = some 0 ∨
        mlookup s.jobs jobID = none) :
      Step s (runJobPrepare s fs jobID now).1
  | refreshStep (s : ServerState) (jobID : String) (frames : Int) (now : Nat) :
      Step s (refreshJobProgress s jobID frames now)
  | indexPhaseStep (s : ServerState) (jobID : String) (total : Int)
      (hnn : 0 ≤ total) :
      Step s (indexFramesPhase s jobID total)
  | markFrameUploadedStep (s : ServerState) (jobID : String)
      (uploaded total : Int) (now : Nat) (hle : uploaded ≤ total) :
      Step s (markFrameUploaded s jobID uploaded total now)
  | completeJobStep (s : ServerState) (jobID : String) (now : Nat) :
      Step s (completeJob s jobID now)
  | failJobStep (s : ServerState) (jobID msg : String) (now : Nat) :
      Step s (failJob s jobID msg now)
  | markJobCancelledStep (s : ServerState) (jobID : String) (now : Nat) :
      Step s (markJobCancelled s jobID now)
  | dropHandle (s : ServerState) (jobID : String) :
      Step s (dropCancelHandle s jobID)

/-- States the daemon can reach from `NewServer()`. -/
def Reachable (s : ServerState) : Prop :=
  Relation.ReflTransGen Step initialState s

/-! ## The progress invariant -/

/-- Bound carried by a video record: frames uploaded never exceed the
expected total (needed where a done job's progress is recomputed). -/
def VideoBound : Option Video → Prop
  | none => True
  | some v => v.framesUploaded ≤ v.totalFramesExpected

instance (ov : Option Video) : Decidable (VideoBound ov) :=
  match ov with
  | none => Decidable.isTrue trivial
  | some _ => inferInstanceAs (Decidable (_ ≤ _))

/-- Per-job invariant: a job that is not done sits strictly below 1; a done
job sits at exactly 1 and its video's counters are consistent. -/
def JobOk (s : ServerState) (j : Job) : Prop :=
  (j.status ≠ "done" → j.progress < 1) ∧
  (j.status = "done" →
    j.progress = 1 ∧ VideoBound (mlookup s.videos j.videoID))

/-- Registry invariant: every stored job satisfies `JobOk`, and job keys
are unique (as in a Go map). -/
def StateInv (s : ServerState) : Prop :=
  (∀ p ∈ s.jobs, JobOk s p.2) ∧ (s.jobs.map Prod.fst).Nodup

instance (s : ServerState) (j : Job) : Decidable (JobOk s j) := by
  unfold JobOk
  infer_instance

instance (s : ServerState) : Decidable (StateInv s) := by
  unfold StateInv
  infer_instance

/-! ## Concrete traces used by closed theorems and witnesses -/

/-- One video registered. -/
def sReg : ServerState := (addVideoPath initialState "/videos/a.mp4" "vid_a").2.2

/-- ... and a job started for it (queued, progress 0). -/
def sStarted : ServerState := (startJob sReg "vid_a" false 0 "job_1").2

/-- ... and the background task's opening section executed (running). -/
def sRunning : ServerState := (runJobPrepare sStarted [] "job_1" 0).1

/-- ... indexing phase entered with 2 frames, first upload done: 1/2. -/
def sHalf : ServerState :=
  markFrameUploaded (indexFramesPhase sRunning "job_1" 2) "job_1" 1 2 5

/-- ... alternatively, a ticker tick observed 5 frame files. -/
def sTick5 : ServerState := refreshJobProgress sRunning "job_1" 5 1

/-- A filesystem whose per-video working directory holds a stale frame. -/
def fsWithOldFrames : FileSys := [("frames/a", ["frame_0001.jpg"])]

/-- The job record stored in `sStarted`. -/
def jStarted : Job :=
  { id := "job_1", videoID := "vid_a", jobType := "extract_and_upload"
    status := "queued", progress := 0, createdAt := 0, updatedAt := 0 }

/-- The job record stored in `sHalf` (progress one half). -/
def jHalf : Job :=
  { id := "job_1", videoID := "vid_a", jobType := "extract_and_upload"
    status := "running", progress := mkRat 1 2, createdAt := 0, updatedAt := 5 }

/-- The job record after `failJob` resets `sHalf`'s job. -/
def jHalfFailed : Job :=
  { id := "job_1", videoID := "vid_a", jobType := "extract_and_upload"
    status := "failed", progress := 0, createdAt := 0, updatedAt := 6 }

/-- The video record stored in `sTick5`. -/
def vTick5 : Video :=
  { id := "vid_a", path := "/videos/a.mp4", durationSeconds := 0
    indexStatus := "extracting", framesExtracted := 5, framesUploaded := 0
    totalFramesExpected := 5, lastIndexedAt := none, lastError := none }

/-- The job record stored in `sTick5`. -/
def jTick5 : Job :=
  { id := "job_1", videoID := "vid_a", jobType := "extract_and_upload"
    status := "running", progress := 0, createdAt := 0, updatedAt := 1 }

/-- `sTick5`'s video after one `markFrameUploaded 1 2` accounting step. -/
def vTick5M : Video :=
  { vTick5 with indexStatus := "indexing", framesUploaded := 1 }

/-- `sTick5`'s video after `completeJob` at time 9. -/
def vTick5C : Video :=
  { vTick5 with indexStatus := "indexed", lastIndexedAt := some 9 }

/-- The video record stored in `sStarted`. -/
def vStarted : Video :=
  { id := "vid_a", path := "/videos/a.mp4", durationSeconds := 0
    indexStatus := "extracting", framesExtracted := 0, framesUploaded := 0
    totalFramesExpected := 0, lastIndexedAt := none, lastError := none }

/-! # Theorems -/

/-! ## Association-list lemmas -/

theorem mlookup_filter_ne {α : Type} (m : List (String × α)) (k k' : String)
    (h : k ≠ k') :
    mlookup (m.filter (fun p => !(p.1 == k))) k' = mlookup m k' := by
  induction m with
  | nil => rfl
  | cons p rest ih =>
    by_cases hpk : p.1 = k
    · have : (p.1 == k) = true := beq_iff_eq.mpr hpk
      simp only [List.filter_cons, this, Bool.not_true, if_neg]
      have hpk' : p.1 ≠ k' := by rw [hpk]; exact h
      simp [mlookup, hpk', ih]
    · have : (p.1 == k) = false := beq_eq_false_iff_ne.mpr hpk
      simp only [List.filter_cons, this, Bool.not_false, if_pos]
      by_cases hpk' : p.1 = k'
      · simp [mlookup, hpk']
      · simp [mlookup, hpk', ih]

theorem mlookup_mset {α : Type} (m : List (String × α)) (k : String) (v : α)
    (k' : String) :
    mlookup (mset m k v) k' = if k = k' then some v else mlookup m k' := by
  by_cases h : k = k'
  · simp [mset, mlookup, h]
  · simp only [mset, mlookup, if_neg h]
    exact mlookup_filter_ne m k k' h

theorem mlookup_mset_self {α : Type} (m : List (String × α)) (k : String)
    (v : α) : mlookup (mset m k v) k = some v := by
  simp [mlookup_mset]

theorem mlookup_mset_ne {α : Type} (m : List (String × α)) (k : String)
    (v : α) (k' : String) (h : k ≠ k') :
    mlookup (mset m k v) k' = mlookup m k' := by
  simp [mlookup_mset, h]

theorem mem_of_mem_mset {α : Type} {m : List (String × α)} {k : String}
    {v : α} {p : String × α} (h : p ∈ mset m k v) :
    p = (k, v) ∨ p ∈ m := by
  rcases List.mem_cons.mp h with h1 | h2
  · exact Or.inl h1
  · exact Or.inr (List.mem_of_mem_filter h2)

theorem mem_of_mlookup_eq_some {α : Type} {m : List (String × α)}
    {k : String} {v : α} (h : mlookup m k = some v) : (k, v) ∈ m := by
  induction m with
  | nil => simp [mlookup] at h
  | cons p rest ih =>
    by_cases hpk : p.1 = k
    · simp only [mlookup, if_pos hpk] at h
      cases h
      have : (k, p.2) = p := by
        rw [← hpk]
      rw [this]
      exact List.mem_cons_self _ _
    · simp only [mlookup, if_neg hpk] at h
      exact List.mem_cons_of_mem _ (ih h)

theorem msetKeys_nodup {α : Type} (m : List (String × α)) (k : String)
    (v : α) (h : (m.map Prod.fst).Nodup) :
    ((mset m k v).map Prod.fst).Nodup := by
  simp only [mset, List.map_cons, List.nodup_cons]
  constructor
  · intro hmem
    rcases List.mem_map.mp hmem with ⟨p, hp, hfst⟩
    have := List.of_mem_filter hp
    rw [hfst] at this
    simp at this
  · exact ((List.filter_sublist m).map Prod.fst).nodup h

theorem find?_eq_lookup_of_nodup {α : Type} {m : List (String × α)}
    {pred : String × α → Bool} {k : String} {v : α}
    (hfind : m.find? pred = some (k, v))
    (hnd : (m.map Prod.fst).Nodup) :
    mlookup m k = some v := by
  induction m with
  | nil => simp at hfind
  | cons p rest ih =>
    simp only [List.map_cons, List.nodup_cons] at hnd
    by_cases hp : pred p
    · rw [List.find?_cons_of_pos _ hp] at hfind
      cases hfind
      simp [mlookup]
    · rw [List.find?_cons_of_neg _ (by simpa using hp)] at hfind
      have hk : (k, v) ∈ rest := List.mem_of_find?_eq_some hfind
      have hne : p.1 ≠ k := by
        intro hcontra
        exact hnd.1 (List.mem_map.mpr ⟨(k, v), hk, by rw [hcontra]⟩)
      simp only [mlookup, if_neg hne]
      exact ih hfind hnd.2

/-! ## Filesystem lemmas -/

theorem mlookup_removeAll (fs : FileSys) (dir : String) :
    mlookup (removeAll fs dir) dir = none := by
  induction fs with
  | nil => rfl
  | cons p rest ih =>
    by_cases hp : p.1 = dir
    · have : (p.1 == dir) = true := beq_iff_eq.mpr hp
      simp only [removeAll, List.filter_cons, this, Bool.not_true, if_neg]
      exact ih
    · have : (p.1 == dir) = false := beq_eq_false_iff_ne.mpr hp
      simp only [removeAll, List.filter_cons, this, Bool.not_false, if_pos]
      simp only [mlookup, if_neg hp]
      exact ih

/-! ## Progress computation lemmas -/

theorem nextafterOne_lt_one : nextafterOne < 1 := by decide

theorem updateExpected_pos (v : Video) : 0 < (updateExpected v).1 := by
  unfold updateExpected
  split
  · dsimp only
    split
    · exact Int.zero_lt_one
    · next h => exact lt_of_not_le h
  · next h => exact lt_of_not_le h

theorem updateExpected_fields (v : Video) :
    (updateExpected v).2.id = v.id ∧
    (updateExpected v).2.path = v.path ∧
    (updateExpected v).2.durationSeconds = v.durationSeconds ∧
    (updateExpected v).2.indexStatus = v.indexStatus ∧
    (updateExpected v).2.framesExtracted = v.framesExtracted ∧
    (updateExpected v).2.framesUploaded = v.framesUploaded ∧
    (updateExpected v).2.lastIndexedAt = v.lastIndexedAt ∧
    (updateExpected v).2.lastError = v.lastError ∧
    (updateExpected v).2.totalFramesExpected = (updateExpected v).1 := by
  unfold updateExpected
  refine ⟨?_, ?_, ?_, ?_, ?_, ?_, ?_, ?_, ?_⟩ <;> (split <;> rfl)

theorem updateExpected_tfe_mono (v : Video) :
    v.totalFramesExpected ≤ (updateExpected v).1 := by
  unfold updateExpected
  split
  · next h =>
    dsimp only
    split
    · omega
    · next h2 => omega
  · exact le_refl _

theorem updateExpected_up_le (v : Video)
    (hb : v.framesUploaded ≤ v.totalFramesExpected) :
    v.framesUploaded ≤ (updateExpected v).1 := by
  unfold updateExpected
  split
  · dsimp only
    split
    · next h2 => omega
    · exact le_refl _
  · exact hb

theorem updateExpected_of_pos (v : Video) (h : 0 < v.totalFramesExpected) :
    updateExpected v = (v.totalFramesExpected, v) := by
  unfold updateExpected
  rw [if_neg (not_le.mpr h)]

theorem mkRat_toNat_le_one {a b : Int} (hab : a ≤ b) (hb : 0 < b) :
    mkRat a b.toNat ≤ 1 := by
  rw [Rat.mkRat_eq_div]
  have h1 : (0 : ℚ) < (b.toNat : ℚ) := by
    have : 0 < b.toNat := by omega
    exact_mod_cast this
  rw [div_le_one h1]
  have h2 : a ≤ (b.toNat : Int) := by omega
  exact_mod_cast h2

theorem progressOf_le_one (v : Video)
    (hb : v.framesUploaded ≤ v.totalFramesExpected) : progressOf v ≤ 1 := by
  unfold progressOf
  rw [(updateExpected_fields v).2.2.2.2.2.1]
  exact mkRat_toNat_le_one (updateExpected_up_le v hb) (updateExpected_pos v)

/-- The final step of `updateProgressLocked`: the job's progress is raised
to `P` when that is an increase. -/
theorem job_raise_fields (j : Job) (P : ℚ) :
    (if j.progress < P then { j with progress := P } else j).id = j.id ∧
    (if j.progress < P then { j with progress := P } else j).videoID = j.videoID ∧
    (if j.progress < P then { j with progress := P } else j).jobType = j.jobType ∧
    (if j.progress < P then { j with progress := P } else j).status = j.status ∧
    (if j.progress < P then { j with progress := P } else j).createdAt = j.createdAt ∧
    (if j.progress < P then { j with progress := P } else j).updatedAt = j.updatedAt := by
  refine ⟨?_, ?_, ?_, ?_, ?_, ?_⟩ <;> (split <;> rfl)

theorem job_raise_progress_mono (j : Job) (P : ℚ) :
    j.progress ≤ (if j.progress < P then { j with progress := P } else j).progress := by
  split
  · next h => exact le_of_lt h
  · exact le_refl _

theorem job_raise_progress_lt_one (j : Job) (P : ℚ) (hP : P < 1)
    (hp : j.progress < 1) :
    (if j.progress < P then { j with progress := P } else j).progress < 1 := by
  split
  · exact hP
  · exact hp

theorem job_raise_progress_done (j : Job) (P : ℚ) (hp : j.progress = 1)
    (hP : P ≤ 1) :
    (if j.progress < P then { j with progress := P } else j).progress = 1 := by
  rw [if_neg (by rw [hp]; exact not_lt.mpr hP)]
  exact hp

theorem updateProgressLocked_job_fields (v : Video) (j : Job) (c : Bool) :
    (updateProgressLocked v j c).2.id = j.id ∧
    (updateProgressLocked v j c).2.videoID = j.videoID ∧
    (updateProgressLocked v j c).2.jobType = j.jobType ∧
    (updateProgressLocked v j c).2.status = j.status ∧
    (updateProgressLocked v j c).2.createdAt = j.createdAt ∧
    (updateProgressLocked v j c).2.updatedAt = j.updatedAt := by
  unfold updateProgressLocked
  dsimp only
  exact job_raise_fields j _

theorem updateProgressLocked_video (v : Video) (j : Job) (c : Bool) :
    (updateProgressLocked v j c).1 = (updateExpected v).2 := rfl

theorem updateProgressLocked_progress_mono (v : Video) (j : Job) (c : Bool) :
    j.progress ≤ (updateProgressLocked v j c).2.progress := by
  unfold updateProgressLocked
  dsimp only
  exact job_raise_progress_mono j _

theorem updateProgressLocked_progress_lt_one (v : Video) (j : Job)
    (hs : j.status ≠ "done") (hp : j.progress < 1) :
    (updateProgressLocked v j true).2.progress < 1 := by
  unfold updateProgressLocked
  dsimp only
  apply job_raise_progress_lt_one j _ _ hp
  split
  · exact nextafterOne_lt_one
  · next hc => exact lt_of_not_le (fun hle => hc ⟨rfl, hle, hs⟩)

theorem updateProgressLocked_progress_done (v : Video) (j : Job) (c : Bool)
    (_hs : j.status = "done") (hp : j.progress = 1)
    (hb : v.framesUploaded ≤ v.totalFramesExpected) :
    (updateProgressLocked v j c).2.progress = 1 := by
  unfold updateProgressLocked
  dsimp only
  apply job_raise_progress_done j _ hp
  split
  · exact le_of_lt nextafterOne_lt_one
  · exact progressOf_le_one v hb

/-- The video side of `updateProgressLocked` keeps the uploaded-vs-expected
bound. -/
theorem updateProgressLocked_video_bound (v : Video) (j : Job) (c : Bool)
    (hb : v.framesUploaded ≤ v.totalFramesExpected) :
    (updateProgressLocked v j c).1.framesUploaded ≤
      (updateProgressLocked v j c).1.totalFramesExpected := by
  rw [updateProgressLocked_video]
  rw [(updateExpected_fields v).2.2.2.2.2.1,
    (updateExpected_fields v).2.2.2.2.2.2.2.2]
  exact updateExpected_up_le v hb

/-! ## Raise-pattern lemmas -/

theorem raiseExtracted_up (v : Video) (n : Int) :
    (raiseExtracted v n).framesUploaded = v.framesUploaded := by
  unfold raiseExtracted; split <;> rfl

theorem raiseExtracted_tfe (v : Video) (n : Int) :
    (raiseExtracted v n).totalFramesExpected = v.totalFramesExpected := by
  unfold raiseExtracted; split <;> rfl

theorem raiseExtracted_lastError (v : Video) (n : Int) :
    (raiseExtracted v n).lastError = v.lastError := by
  unfold raiseExtracted; split <;> rfl

theorem raiseTFE_up (v : Video) (n : Int) :
    (raiseTFE v n).framesUploaded = v.framesUploaded := by
  unfold raiseTFE; split <;> rfl

theorem raiseTFE_fx (v : Video) (n : Int) :
    (raiseTFE v n).framesExtracted = v.framesExtracted := by
  unfold raiseTFE; split <;> rfl

theorem raiseTFE_lastError (v : Video) (n : Int) :
    (raiseTFE v n).lastError = v.lastError := by
  unfold raiseTFE; split <;> rfl

theorem raiseTFE_tfe_ge_old (v : Video) (n : Int) :
    v.totalFramesExpected ≤ (raiseTFE v n).totalFramesExpected := by
  unfold raiseTFE
  split
  · next h => exact le_of_lt h
  · exact le_refl _

theorem raiseTFE_tfe_ge_n (v : Video) (n : Int) :
    n ≤ (raiseTFE v n).totalFramesExpected := by
  unfold raiseTFE
  split
  · exact le_refl _
  · next h => exact le_of_not_lt h

theorem raiseUploaded_tfe (v : Video) (n : Int) :
    (raiseUploaded v n).totalFramesExpected = v.totalFramesExpected := by
  unfold raiseUploaded; split <;> rfl

theorem raiseUploaded_fx (v : Video) (n : Int) :
    (raiseUploaded v n).framesExtracted = v.framesExtracted := by
  unfold raiseUploaded; split <;> rfl

theorem raiseUploaded_lastError (v : Video) (n : Int) :
    (raiseUploaded v n).lastError = v.lastError := by
  unfold raiseUploaded; split <;> rfl

theorem raiseUploaded_up_le (v : Video) (n t : Int)
    (h1 : v.framesUploaded ≤ t) (h2 : n ≤ t) :
    (raiseUploaded v n).framesUploaded ≤ t := by
  unfold raiseUploaded
  split
  · exact h2
  · exact h1

theorem videoBound_some_iff (v : Video) :
    VideoBound (some v) ↔ v.framesUploaded ≤ v.totalFramesExpected :=
  Iff.rfl

/-- The raised video of `refreshJobProgress` keeps the bound. -/
theorem refresh_raise_bound (video : Video) (frames : Int)
    (hb : video.framesUploaded ≤ video.totalFramesExpected) :
    (raiseTFE (raiseExtracted video frames) frames).framesUploaded ≤
      (raiseTFE (raiseExtracted video frames) frames).totalFramesExpected := by
  rw [raiseTFE_up, raiseExtracted_up]
  have h1 := raiseTFE_tfe_ge_old (raiseExtracted video frames) frames
  rw [raiseExtracted_tfe] at h1
  omega

/-- The raised video of `markFrameUploaded` keeps the bound. -/
theorem markFrame_raise_bound (video : Video) (uploaded total : Int)
    (hle : uploaded ≤ total)
    (hb : video.framesUploaded ≤ video.totalFramesExpected) :
    (raiseExtracted (raiseTFE (raiseUploaded video uploaded) total)
        total).framesUploaded ≤
      (raiseExtracted (raiseTFE (raiseUploaded video uploaded) total)
        total).totalFramesExpected := by
  rw [raiseExtracted_up, raiseExtracted_tfe, raiseTFE_up]
  have h1 := raiseTFE_tfe_ge_old (raiseUploaded video uploaded) total
  have h2 := raiseTFE_tfe_ge_n (raiseUploaded video uploaded) total
  rw [raiseUploaded_tfe] at h1
  refine raiseUploaded_up_le video uploaded _ ?_ ?_ <;> omega

/-- The raised video of `completeJob` satisfies the bound outright. -/
theorem complete_raise_bound (w : Video) :
    (raiseTFE w w.framesUploaded).framesUploaded ≤
      (raiseTFE w w.framesUploaded).totalFramesExpected := by
  rw [raiseTFE_up]
  exact raiseTFE_tfe_ge_n _ _

theorem mlookup_inj {α : Type} {m : List (String × α)} {k : String}
    {a b : α} (h1 : mlookup m k = some a) (h2 : mlookup m k = some b) :
    a = b := by
  rw [h1] at h2
  exact Option.some.inj h2

theorem updateProgressLocked_tfe_mono (v : Video) (j : Job) (c : Bool) :
    v.totalFramesExpected ≤
      (updateProgressLocked v j c).1.totalFramesExpected := by
  rw [updateProgressLocked_video,
    (updateExpected_fields v).2.2.2.2.2.2.2.2]
  exact updateExpected_tfe_mono v

theorem updateProgressLocked_video_of_pos (v : Video) (j : Job) (c : Bool)
    (h : 0 < v.totalFramesExpected) : (updateProgressLocked v j c).1 = v := by
  rw [updateProgressLocked_video, updateExpected_of_pos v h]

/-! ## Invariant transport lemmas -/

theorem jobOk_mono {s s' : ServerState} {j : Job} (hok : JobOk s j)
    (hv : VideoBound (mlookup s.videos j.videoID) →
      VideoBound (mlookup s'.videos j.videoID)) :
    JobOk s' j :=
  ⟨hok.1, fun hd => ⟨(hok.2 hd).1, hv (hok.2 hd).2⟩⟩

theorem stateInv_congr {s s' : ServerState} (hj : s'.jobs = s.jobs)
    (hv : s'.videos = s.videos) (hinv : StateInv s) : StateInv s' := by
  constructor
  · intro p hp
    rw [hj] at hp
    exact jobOk_mono (hinv.1 p hp) (by rw [hv]; exact id)
  · rw [hj]; exact hinv.2

/-- Setting a not-done, below-1 job at some key preserves the invariant,
provided the videos table only moves in bound-preserving ways. -/
theorem stateInv_set_job {s s' : ServerState} (hinv : StateInv s)
    (jobID : String) (jN : Job)
    (hsjobs : s'.jobs = mset s.jobs jobID jN)
    (hjNotDone : jN.status ≠ "done") (hjProg : jN.progress < 1)
    (hv : ∀ k, VideoBound (mlookup s.videos k) →
      VideoBound (mlookup s'.videos k)) :
    StateInv s' := by
  constructor
  · intro p hp
    rw [hsjobs] at hp
    rcases mem_of_mem_mset hp with hnew | hold
    · subst hnew
      exact ⟨fun _ => hjProg, fun hd => absurd hd hjNotDone⟩
    · exact jobOk_mono (hinv.1 p hold) (hv p.2.videoID)
  · rw [hsjobs]; exact msetKeys_nodup _ _ _ hinv.2

/-- Marking a job done with progress exactly 1, while its video is stored
with consistent counters, preserves the invariant. -/
theorem stateInv_set_job_done {s s' : ServerState} (hinv : StateInv s)
    (jobID : String) {j : Job} (jN : Job) (vN : Video)
    (_hj : mlookup s.jobs jobID = some j)
    (hsjobs : s'.jobs = mset s.jobs jobID jN)
    (hsvideos : s'.videos = mset s.videos j.videoID vN)
    (hjVid : jN.videoID = j.videoID)
    (hjDone : jN.status = "done") (hjProg : jN.progress = 1)
    (hvN : vN.framesUploaded ≤ vN.totalFramesExpected) :
    StateInv s' := by
  constructor
  · intro p hp
    rw [hsjobs] at hp
    rcases mem_of_mem_mset hp with hnew | hold
    · subst hnew
      refine ⟨fun h => absurd hjDone h, fun _ => ⟨hjProg, ?_⟩⟩
      rw [hsvideos, hjVid, mlookup_mset_self]
      exact hvN
    · refine jobOk_mono (hinv.1 p hold) ?_
      intro hb
      rw [hsvideos, mlookup_mset]
      split
      · exact hvN
      · exact hb
  · rw [hsjobs]; exact msetKeys_nodup _ _ _ hinv.2

/-- Replacing a video with one whose counters are consistent preserves the
invariant when the jobs table is untouched. -/
theorem stateInv_videos_set {s s' : ServerState} (hinv : StateInv s)
    (k : String) (vN : Video)
    (hsjobs : s'.jobs = s.jobs)
    (hsvideos : s'.videos = mset s.videos k vN)
    (hvN : vN.framesUploaded ≤ vN.totalFramesExpected) : StateInv s' := by
  constructor
  · intro p hp
    rw [hsjobs] at hp
    refine jobOk_mono (hinv.1 p hp) ?_
    intro hb
    rw [hsvideos, mlookup_mset]
    split
    · exact hvN
    · exact hb
  · rw [hsjobs]; exact hinv.2

/-- A progress-recomputation site: the stored job keeps its status, its
progress moves as `updateProgressLocked` moves it, and the stored video
keeps the uploaded-vs-expected bound. -/
theorem stateInv_progress_site {s s' : ServerState} (hinv : StateInv s)
    (jobID : String) {j : Job} (jN : Job) (vN : Video)
    (hj : mlookup s.jobs jobID = some j)
    (hsjobs : s'.jobs = mset s.jobs jobID jN)
    (hsvideos : s'.videos = mset s.videos j.videoID vN)
    (hjVid : jN.videoID = j.videoID)
    (hjStatus : jN.status = j.status)
    (hjLt : j.status ≠ "done" → j.progress < 1 → jN.progress < 1)
    (hjDone : j.status = "done" → j.progress = 1 →
      VideoBound (mlookup s.videos j.videoID) → jN.progress = 1)
    (hvN : VideoBound (mlookup s.videos j.videoID) →
      vN.framesUploaded ≤ vN.totalFramesExpected) :
    StateInv s' := by
  have hokj := hinv.1 (jobID, j) (mem_of_mlookup_eq_some hj)
  constructor
  · intro p hp
    rw [hsjobs] at hp
    rcases mem_of_mem_mset hp with hnew | hold
    · subst hnew
      constructor
      · intro hnd
        rw [hjStatus] at hnd
        exact hjLt hnd (hokj.1 hnd)
      · intro hd
        rw [hjStatus] at hd
        refine ⟨hjDone hd (hokj.2 hd).1 (hokj.2 hd).2, ?_⟩
        rw [hsvideos, hjVid, mlookup_mset_self]
        exact hvN (hokj.2 hd).2
    · refine jobOk_mono (hinv.1 p hold) ?_
      intro hb
      rw [hsvideos, mlookup_mset]
      split
      · next hk => exact hvN (hk ▸ hb)
      · exact hb
  · rw [hsjobs]; exact msetKeys_nodup _ _ _ hinv.2

/-- Every daemon transition preserves the progress invariant. -/
theorem stateInv_step {s s' : ServerState} (hstep : Step s s')
    (hinv : StateInv s) : StateInv s' := by
  cases hstep with
  | addVideo path videoID =>
    cases hfind : mlookup s.videoByPath path with
    | some id => simpa [addVideoPath, hfind] using hinv
    | none =>
      simp only [addVideoPath, hfind]
      exact stateInv_videos_set hinv videoID _ rfl rfl (le_refl 0)
  | registerFolderStep path recursive folderID =>
    by_cases htrim : trimSpace path = ""
    · simpa [registerFolder, htrim] using hinv
    · cases hfind : mlookup s.folderByPath path with
      | some id => simpa [registerFolder, htrim, hfind] using hinv
      | none =>
        simp only [registerFolder, if_neg htrim, hfind]
        exact stateInv_congr rfl rfl hinv
  | folderStatus folderID st =>
    cases hfind : mlookup s.folders folderID with
    | none => simpa [setFolderStatus, hfind] using hinv
    | some f =>
      simp only [setFolderStatus, hfind]
      exact stateInv_congr rfl rfl hinv
  | dropHandle jobID => exact stateInv_congr rfl rfl hinv
  | startJobStep videoID reindex now jobID hfresh =>
    cases hfind : mlookup s.videos videoID with
    | none => simpa [startJob, hfind] using hinv
    | some video =>
      simp only [startJob, hfind]
      refine stateInv_set_job hinv jobID _ rfl
        (by show ("queued" : String) ≠ "done"; decide)
        (by show (0 : ℚ) < 1; norm_num) ?_
      intro k hb
      rw [mlookup_mset]
      split
      · show (0 : Int) ≤ 0
        exact le_refl 0
      · exact hb
  | cancelJobStep videoID now =>
    cases hfind : s.jobs.find? (fun p => isActiveFor videoID p.2) with
    | none => simpa [cancelJob, hfind] using hinv
    | some pr =>
      obtain ⟨jobID, job⟩ := pr
      have hmem : (jobID, job) ∈ s.jobs := List.mem_of_find?_eq_some hfind
      have hpred : isActiveFor videoID job = true := by
        simpa using List.find?_some hfind
      have hnd : job.status ≠ "done" := by
        unfold isActiveFor at hpred
        simp only [Bool.and_eq_true, Bool.or_eq_true, beq_iff_eq] at hpred
        rcases hpred.2 with h | h <;> (rw [h]; decide)
      have hlt : job.progress < 1 := (hinv.1 (jobID, job) hmem).1 hnd
      simp only [cancelJob, hfind]
      refine stateInv_set_job hinv jobID _ rfl
        (by show ("failed" : String) ≠ "done"; decide) hlt ?_
      intro k hb
      cases hvid : mlookup s.videos videoID with
      | none => simpa [hvid] using hb
      | some v =>
        simp only [hvid]
        rw [mlookup_mset]
        split
        · next hk =>
          rw [hk] at hvid
          rw [hvid] at hb
          exact hb
        · exact hb
  | runJobPrepareStep fs jobID now hzero =>
    cases hj : mlookup s.jobs jobID with
    | none => simpa [runJobPrepare, hj] using hinv
    | some job =>
      cases hv : mlookup s.videos job.videoID with
      | none => simpa [runJobPrepare, hj, hv] using hinv
      | some video =>
        simp only [runJobPrepare, hj, hv]
        refine stateInv_set_job hinv jobID _ rfl
          (by show ("running" : String) ≠ "done"; decide)
          (by show (0 : ℚ) < 1; norm_num) ?_
        intro k hb
        rw [mlookup_mset]
        split
        · next hk =>
          rw [hk] at hv
          rw [hv] at hb
          have hb2 : video.framesUploaded ≤ video.totalFramesExpected := hb
          rw [videoBound_some_iff]
          dsimp only
          by_cases h0 : video.totalFramesExpected = 0
          · rw [if_pos h0]
            split <;> omega
          · rw [if_neg h0]
            split <;> omega
        · exact hb
  | refreshStep jobID frames now =>
    cases hj : mlookup s.jobs jobID with
    | none => simpa [refreshJobProgress, hj] using hinv
    | some job =>
      cases hv : mlookup s.videos job.videoID with
      | none => simpa [refreshJobProgress, hj, hv] using hinv
      | some video =>
        simp only [refreshJobProgress, hj, hv]
        refine stateInv_progress_site hinv jobID _ _ hj rfl rfl
          ?_ ?_ ?_ ?_ ?_
        · exact (updateProgressLocked_job_fields _ job true).2.1
        · exact (updateProgressLocked_job_fields _ job true).2.2.2.1
        · intro hnd hlt
          exact updateProgressLocked_progress_lt_one _ job hnd hlt
        · intro hd hp hb
          rw [hv] at hb
          have hb2 : video.framesUploaded ≤ video.totalFramesExpected := hb
          exact updateProgressLocked_progress_done _ job true hd hp
            (refresh_raise_bound video frames hb2)
        · intro hb
          rw [hv] at hb
          have hb2 : video.framesUploaded ≤ video.totalFramesExpected := hb
          dsimp only
          exact updateProgressLocked_video_bound _ job true
            (refresh_raise_bound video frames hb2)
  | indexPhaseStep jobID total hnn =>
    cases hj : mlookup s.jobs jobID with
    | none => simpa [indexFramesPhase, hj] using hinv
    | some job =>
      cases hv : mlookup s.videos job.videoID with
      | none => simpa [indexFramesPhase, hj, hv] using hinv
      | some video =>
        simp only [indexFramesPhase, hj, hv]
        have hmid : (phaseVideo video total).framesUploaded ≤
            (phaseVideo video total).totalFramesExpected := by
          unfold phaseVideo
          dsimp only
          omega
        refine stateInv_progress_site hinv jobID _ _ hj rfl rfl
          ?_ ?_ ?_ ?_ ?_
        · exact (updateProgressLocked_job_fields _ job true).2.1
        · exact (updateProgressLocked_job_fields _ job true).2.2.2.1
        · intro hnd hlt
          exact updateProgressLocked_progress_lt_one _ job hnd hlt
        · intro hd hp _
          exact updateProgressLocked_progress_done _ job true hd hp hmid
        · intro _
          exact updateProgressLocked_video_bound _ job true hmid
  | markFrameUploadedStep jobID uploaded total now hle =>
    cases hj : mlookup s.jobs jobID with
    | none => simpa [markFrameUploaded, hj] using hinv
    | some job =>
      cases hv : mlookup s.videos job.videoID with
      | none => simpa [markFrameUploaded, hj, hv] using hinv
      | some video =>
        simp only [markFrameUploaded, hj, hv]
        refine stateInv_progress_site hinv jobID _ _ hj rfl rfl
          ?_ ?_ ?_ ?_ ?_
        · exact (updateProgressLocked_job_fields _ job true).2.1
        · exact (updateProgressLocked_job_fields _ job true).2.2.2.1
        · intro hnd hlt
          exact updateProgressLocked_progress_lt_one _ job hnd hlt
        · intro hd hp hb
          rw [hv] at hb
          have hb2 : video.framesUploaded ≤ video.totalFramesExpected := hb
          exact updateProgressLocked_progress_done _ job true hd hp
            (markFrame_raise_bound video uploaded total hle hb2)
        · intro hb
          rw [hv] at hb
          have hb2 : video.framesUploaded ≤ video.totalFramesExpected := hb
          dsimp only
          exact updateProgressLocked_video_bound _ job true
            (markFrame_raise_bound video uploaded total hle hb2)
  | completeJobStep jobID now =>
    cases hj : mlookup s.jobs jobID with
    | none => simpa [completeJob, hj] using hinv
    | some job =>
      cases hv : mlookup s.videos job.videoID with
      | none => simpa [completeJob, hj, hv] using hinv
      | some video =>
        simp only [completeJob, hj, hv]
        refine stateInv_set_job_done hinv jobID _ _ hj rfl rfl rfl rfl rfl ?_
        dsimp only
        exact complete_raise_bound (raiseExtracted video video.framesUploaded)
  | failJobStep jobID msg now =>
    cases hj : mlookup s.jobs jobID with
    | none => simpa [failJob, hj] using hinv
    | some job =>
      simp only [failJob, hj]
      refine stateInv_set_job hinv jobID _ rfl
        (by show ("failed" : String) ≠ "done"; decide)
        (by show (0 : ℚ) < 1; norm_num) ?_
      intro k hb
      cases hvid : mlookup s.videos job.videoID with
      | none => simpa [hvid] using hb
      | some v =>
        simp only [hvid]
        rw [mlookup_mset]
        split
        · next hk =>
          rw [hk] at hvid
          rw [hvid] at hb
          exact hb
        · exact hb
  | markJobCancelledStep jobID now =>
    cases hj : mlookup s.jobs jobID with
    | none => simpa [markJobCancelled, hj] using hinv
    | some job =>
      simp only [markJobCancelled, hj]
      refine stateInv_set_job hinv jobID _ rfl
        (by show ("failed" : String) ≠ "done"; decide)
        (by show (0 : ℚ) < 1; norm_num) ?_
      intro k hb
      cases hvid : mlookup s.videos job.videoID with
      | none => simpa [hvid] using hb
      | some v =>
        simp only [hvid]
        rw [mlookup_mset]
        split
        · next hk =>
          rw [hk] at hvid
          rw [hvid] at hb
          exact hb
        · exact hb

/-- The invariant holds in every reachable state. -/
theorem stateInv_reachable {s : ServerState} (h : Reachable s) : StateInv s := by
  induction h with
  | refl =>
    exact ⟨by intro p hp; simp [initialState] at hp, by simp [initialState]⟩
  | tail _ hstep ih => exact stateInv_step hstep ih

/-! ## Claim theorems -/

set_option maxRecDepth 4000

/-- C1: `startJob` performs no active-job check: calling it for an asset
that already has a queued job records a second live (queued) job for the
same asset, so "at most one queued/running job per asset" fails and the
call is neither rejected nor queued behind the first. -/
theorem startJob_creates_second_live_job :
    countActiveJobs sStarted "vid_a" = 1 ∧
    countActiveJobs (startJob sStarted "vid_a" false 0 "job_2").2 "vid_a" = 2 := by
  decide

/-- C4: registering the same path twice returns the same video id both
times, the second call reports that it already existed, and the second
call leaves the registry state untouched (`addVideoPath`,
handlers_folders.go). -/
theorem addVideoPath_idempotent (s : ServerState) (p id1 id2 : String) :
    (addVideoPath (addVideoPath s p id1).2.2 p id2).1 = (addVideoPath s p id1).1 ∧
    (addVideoPath (addVideoPath s p id1).2.2 p id2).2.1 = true ∧
    (addVideoPath (addVideoPath s p id1).2.2 p id2).2.2 = (addVideoPath s p id1).2.2 := by
  cases hfind : mlookup s.videoByPath p with
  | some id =>
    simp [addVideoPath, hfind]
  | none =>
    simp [addVideoPath, hfind, mlookup_mset_self]

/-- C6: when no queued/running job exists for the requested video id
(including ids of unknown videos), `cancelJob` answers NotFound and
returns the state unchanged: every video, job, folder and
cancellation-handle record is exactly as before. -/
theorem cancelJob_notfound_no_change (s : ServerState) (videoID : String)
    (now : Nat) (h : ∀ p ∈ s.jobs, isActiveFor videoID p.2 = false) :
    cancelJob s videoID now = (Except.error (), s) := by
  have hfind : s.jobs.find? (fun p => isActiveFor videoID p.2) = none :=
    List.find?_eq_none.mpr (fun p hp => by simp [h p hp])
  simp [cancelJob, hfind]

/-- C6 witness: a registry whose only job is failed; cancelling reports
NotFound and changes nothing. -/
theorem cancelJob_notfound_no_change_witness :
    cancelJob (failJob sStarted "job_1" "x" 1) "vid_a" 2 =
      (Except.error (), failJob sStarted "job_1" "x" 1) :=
  cancelJob_notfound_no_change (failJob sStarted "job_1" "x" 1) "vid_a" 2
    (by decide)

/-- C7: the cancellation mark is not sticky. After `cancelJob` has marked
the job failed, the already-launched background task still sets the job
back to "running" when its opening section runs, and `completeJob` (reached
when the indexing loop finished without observing the cancellation signal)
sets it to "done": the terminal mark is resurrected on both paths. -/
theorem cancelled_job_resurrected :
    (mlookup (cancelJob sStarted "vid_a" 1).2.jobs "job_1").map Job.status =
      some "failed" ∧
    (mlookup (runJobPrepare (cancelJob sStarted "vid_a" 1).2 [] "job_1" 2).1.jobs
      "job_1").map Job.status = some "running" ∧
    (mlookup (completeJob (cancelJob sStarted "vid_a" 1).2 "job_1" 3).jobs
      "job_1").map Job.status = some "done" := by
  decide

/-- C3 counterexample: a job at progress 1/2 is reset to progress 0 by
`failJob`, so progress decreases across the failure transition. -/
theorem progress_drops_on_failJob :
    (mlookup sHalf.jobs "job_1").map Job.progress = some (mkRat 1 2) ∧
    (mlookup (failJob sHalf "job_1" "boom" 6).jobs "job_1").map Job.progress =
      some 0 ∧
    (0 : ℚ) < mkRat 1 2 := by
  decide

/-- C8 counterexample: a ticker tick raised total-frames-expected to 5,
then the phase boundary at the start of indexing assigned it the observed
frame count 3 — the phase-boundary site decreases the value. -/
theorem totalFramesExpected_drops_at_index_phase :
    (mlookup sTick5.videos "vid_a").map Video.totalFramesExpected = some 5 ∧
    (mlookup (indexFramesPhase sTick5 "job_1" 3).videos "vid_a").map
      Video.totalFramesExpected = some 3 := by
  decide

/-- C9 counterexample: a file already present in the per-asset working
directory is gone once `runJob`'s opening section has run: the directory is
pre-cleared by `os.RemoveAll` before extraction is launched. -/
theorem working_dir_is_precleared :
    mlookup fsWithOldFrames (framesDirForVideo sStarted.framesRoot "/videos/a.mp4") =
      some ["frame_0001.jpg"] ∧
    mlookup (runJobPrepare sStarted fsWithOldFrames "job_1" 0).2
      (framesDirForVideo sStarted.framesRoot "/videos/a.mp4") = none := by
  decide

/-- C9 amended: whenever the background task's opening section runs for an
existing job and video, the per-asset working directory (frames root plus
the video's base name without extension) is removed from the filesystem
before extraction is launched — nothing previously stored there survives. -/
theorem runJobPrepare_clears_working_dir (s : ServerState) (fs : FileSys)
    (jobID : String) (now : Nat) (j : Job) (v : Video)
    (hj : mlookup s.jobs jobID = some j)
    (hv : mlookup s.videos j.videoID = some v) :
    mlookup (runJobPrepare s fs jobID now).2
      (framesDirForVideo s.framesRoot v.path) = none := by
  simp only [runJobPrepare, hj, hv]
  exact mlookup_removeAll _ _

/-- C9 amended witness: the stale frame file is removed for the concrete
started job. -/
theorem runJobPrepare_clears_working_dir_witness :
    mlookup (runJobPrepare sStarted fsWithOldFrames "job_1" 0).2
      (framesDirForVideo sStarted.framesRoot vStarted.path) = none :=
  runJobPrepare_clears_working_dir sStarted fsWithOldFrames "job_1" 0
    jStarted vStarted (by decide) (by decide)

/-- C2: in every state the daemon can reach, a stored job's progress equals
exactly 1 if and only if its status is "done"; every update site for a job
that is not done clamps progress strictly below 1 (the invariant
`StateInv`, preserved by `stateInv_step` across all registry mutations). -/
theorem job_progress_one_iff_done (s : ServerState) (h : Reachable s)
    (jobID : String) (j : Job) (hj : mlookup s.jobs jobID = some j) :
    j.progress = 1 ↔ j.status = "done" := by
  have hinv := stateInv_reachable h
  have hok := hinv.1 (jobID, j) (mem_of_mlookup_eq_some hj)
  constructor
  · intro hp
    by_contra hs
    exact absurd hp (ne_of_lt (hok.1 hs))
  · intro hs
    exact (hok.2 hs).1

/-- C2 witness: the reachable state with one queued job. -/
theorem job_progress_one_iff_done_witness :
    Reachable sStarted ∧ mlookup sStarted.jobs "job_1" = some jStarted ∧
      (jStarted.progress = 1 ↔ jStarted.status = "done") := by
  have h1 : Step initialState sReg :=
    Step.addVideo initialState "/videos/a.mp4" "vid_a"
  have h2 : Step sReg sStarted :=
    Step.startJobStep sReg "vid_a" false 0 "job_1" (by decide)
  have hreach : Reachable sStarted :=
    Relation.ReflTransGen.tail (Relation.ReflTransGen.tail
      Relation.ReflTransGen.refl h1) h2
  exact ⟨hreach, by decide,
    job_progress_one_iff_done sStarted hreach "job_1" jStarted (by decide)⟩

theorem progress_le_of_same {m : List (String × Job)} {k : String}
    {a b : Job} (h1 : mlookup m k = some a) (h2 : mlookup m k = some b) :
    a.progress ≤ b.progress := by
  rw [h1] at h2
  injection h2 with h
  rw [h]

/-- C3 amended: across any single daemon transition, a stored job's
progress never decreases, except that the transitions marking the job
failed (`failJob` and `markJobCancelled`, the failure and cancellation
paths) reset it to 0. `cancelJob` itself leaves progress unchanged. -/
theorem progress_monotone_except_failure_reset {s s' : ServerState}
    (hinv : StateInv s) (hstep : Step s s') (jobID : String) (j j' : Job)
    (hj : mlookup s.jobs jobID = some j)
    (hj' : mlookup s'.jobs jobID = some j') :
    j.progress ≤ j'.progress ∨ (j'.status = "failed" ∧ j'.progress = 0) := by
  cases hstep with
  | addVideo path videoID =>
    cases hfind : mlookup s.videoByPath path with
    | some id =>
      simp only [addVideoPath, hfind] at hj'
      exact Or.inl (progress_le_of_same hj hj')
    | none =>
      simp only [addVideoPath, hfind] at hj'
      exact Or.inl (progress_le_of_same hj hj')
  | registerFolderStep path recursive folderID =>
    by_cases htrim : trimSpace path = ""
    · simp [registerFolder, htrim] at hj'
      exact Or.inl (progress_le_of_same hj hj')
    · cases hfind : mlookup s.folderByPath path with
      | some id =>
        simp [registerFolder, htrim, hfind] at hj'
        exact Or.inl (progress_le_of_same hj hj')
      | none =>
        simp [registerFolder, htrim, hfind] at hj'
        exact Or.inl (progress_le_of_same hj hj')
  | folderStatus folderID st =>
    cases hfind : mlookup s.folders folderID with
    | none =>
      simp only [setFolderStatus, hfind] at hj'
      exact Or.inl (progress_le_of_same hj hj')
    | some f =>
      simp only [setFolderStatus, hfind] at hj'
      exact Or.inl (progress_le_of_same hj hj')
  | dropHandle jobID2 =>
    exact Or.inl (progress_le_of_same hj hj')
  | startJobStep videoID reindex now jobID2 hfresh =>
    cases hfind : mlookup s.videos videoID with
    | none =>
      simp only [startJob, hfind] at hj'
      exact Or.inl (progress_le_of_same hj hj')
    | some video =>
      simp only [startJob, hfind] at hj'
      rw [mlookup_mset] at hj'
      by_cases hk : jobID2 = jobID
      · rw [hk] at hfresh
        rw [hfresh] at hj
        exact Option.noConfusion hj
      · rw [if_neg hk] at hj'
        exact Or.inl (progress_le_of_same hj hj')
  | cancelJobStep videoID now =>
    cases hfind : s.jobs.find? (fun p => isActiveFor videoID p.2) with
    | none =>
      simp only [cancelJob, hfind] at hj'
      exact Or.inl (progress_le_of_same hj hj')
    | some pr =>
      obtain ⟨cID, cjob⟩ := pr
      simp only [cancelJob, hfind] at hj'
      rw [mlookup_mset] at hj'
      by_cases hk : cID = jobID
      · rw [if_pos hk] at hj'
        injection hj' with hji
        have hcl : mlookup s.jobs cID = some cjob :=
          find?_eq_lookup_of_nodup hfind hinv.2
        rw [hk] at hcl
        have hjj : j = cjob := by
          rw [hj] at hcl
          exact Option.some.inj hcl
        left
        rw [hjj, ← hji]
      · rw [if_neg hk] at hj'
        exact Or.inl (progress_le_of_same hj hj')
  | runJobPrepareStep fs jobID2 now hzero =>
    cases hjx : mlookup s.jobs jobID2 with
    | none =>
      simp only [runJobPrepare, hjx] at hj'
      exact Or.inl (progress_le_of_same hj hj')
    | some job =>
      cases hvx : mlookup s.videos job.videoID with
      | none =>
        simp only [runJobPrepare, hjx, hvx] at hj'
        exact Or.inl (progress_le_of_same hj hj')
      | some video =>
        have hz0 : job.progress = 0 := by
          rcases hzero with hz | hz
          · rw [hjx] at hz
            simpa using hz
          · rw [hjx] at hz
            exact Option.noConfusion hz
        simp only [runJobPrepare, hjx, hvx] at hj'
        rw [mlookup_mset] at hj'
        by_cases hk : jobID2 = jobID
        · rw [if_pos hk] at hj'
          injection hj' with hji
          rw [hk] at hjx
          have hjj : j = job := by
            rw [hj] at hjx
            exact Option.some.inj hjx
          left
          rw [hjj, ← hji]
          show job.progress ≤ 0
          rw [hz0]
        · rw [if_neg hk] at hj'
          exact Or.inl (progress_le_of_same hj hj')
  | refreshStep jobID2 frames now =>
    cases hjx : mlookup s.jobs jobID2 with
    | none =>
      simp only [refreshJobProgress, hjx] at hj'
      exact Or.inl (progress_le_of_same hj hj')
    | some job =>
      cases hvx : mlookup s.videos job.videoID with
      | none =>
        simp only [refreshJobProgress, hjx, hvx] at hj'
        exact Or.inl (progress_le_of_same hj hj')
      | some video =>
        simp only [refreshJobProgress, hjx, hvx] at hj'
        rw [mlookup_mset] at hj'
        by_cases hk : jobID2 = jobID
        · rw [if_pos hk] at hj'
          injection hj' with hji
          rw [hk] at hjx
          have hjj : j = job := by
            rw [hj] at hjx
            exact Option.some.inj hjx
          left
          rw [hjj, ← hji]
          exact updateProgressLocked_progress_mono _ job true
        · rw [if_neg hk] at hj'
          exact Or.inl (progress_le_of_same hj hj')
  | indexPhaseStep jobID2 total hnn =>
    cases hjx : mlookup s.jobs jobID2 with
    | none =>
      simp only [indexFramesPhase, hjx] at hj'
      exact Or.inl (progress_le_of_same hj hj')
    | some job =>
      cases hvx : mlookup s.videos job.videoID with
      | none =>
        simp only [indexFramesPhase, hjx, hvx] at hj'
        exact Or.inl (progress_le_of_same hj hj')
      | some video =>
        simp only [indexFramesPhase, hjx, hvx] at hj'
        rw [mlookup_mset] at hj'
        by_cases hk : jobID2 = jobID
        · rw [if_pos hk] at hj'
          injection hj' with hji
          rw [hk] at hjx
          have hjj : j = job := by
            rw [hj] at hjx
            exact Option.some.inj hjx
          left
          rw [hjj, ← hji]
          exact updateProgressLocked_progress_mono _ job true
        · rw [if_neg hk] at hj'
          exact Or.inl (progress_le_of_same hj hj')
  | markFrameUploadedStep jobID2 uploaded total now hle =>
    cases hjx : mlookup s.jobs jobID2 with
    | none =>
      simp only [markFrameUploaded, hjx] at hj'
      exact Or.inl (progress_le_of_same hj hj')
    | some job =>
      cases hvx : mlookup s.videos job.videoID with
      | none =>
        simp only [markFrameUploaded, hjx, hvx] at hj'
        exact Or.inl (progress_le_of_same hj hj')
      | some video =>
        simp only [markFrameUploaded, hjx, hvx] at hj'
        rw [mlookup_mset] at hj'
        by_cases hk : jobID2 = jobID
        · rw [if_pos hk] at hj'
          injection hj' with hji
          rw [hk] at hjx
          have hjj : j = job := by
            rw [hj] at hjx
            exact Option.some.inj hjx
          left
          rw [hjj, ← hji]
          exact updateProgressLocked_progress_mono _ job true
        · rw [if_neg hk] at hj'
          exact Or.inl (progress_le_of_same hj hj')
  | completeJobStep jobID2 now =>
    cases hjx : mlookup s.jobs jobID2 with
    | none =>
      simp only [completeJob, hjx] at hj'
      exact Or.inl (progress_le_of_same hj hj')
    | some job =>
      cases hvx : mlookup s.videos job.videoID with
      | none =>
        simp only [completeJob, hjx, hvx] at hj'
        exact Or.inl (progress_le_of_same hj hj')
      | some video =>
        simp only [completeJob, hjx, hvx] at hj'
        rw [mlookup_mset] at hj'
        by_cases hk : jobID2 = jobID
        · rw [if_pos hk] at hj'
          injection hj' with hji
          rw [hk] at hjx
          have hjj : j = job := by
            rw [hj] at hjx
            exact Option.some.inj hjx
          left
          rw [hjj, ← hji]
          show job.progress ≤ 1
          have hok := hinv.1 (jobID, job) (mem_of_mlookup_eq_some hjx)
          by_cases hd : job.status = "done"
          · exact le_of_eq (hok.2 hd).1
          · exact le_of_lt (hok.1 hd)
        · rw [if_neg hk] at hj'
          exact Or.inl (progress_le_of_same hj hj')
  | failJobStep jobID2 msg now =>
    cases hjx : mlookup s.jobs jobID2 with
    | none =>
      simp only [failJob, hjx] at hj'
      exact Or.inl (progress_le_of_same hj hj')
    | some job =>
      simp only [failJob, hjx] at hj'
      rw [mlookup_mset] at hj'
      by_cases hk : jobID2 = jobID
      · rw [if_pos hk] at hj'
        injection hj' with hji
        right
        rw [← hji]
        exact ⟨rfl, rfl⟩
      · rw [if_neg hk] at hj'
        exact Or.inl (progress_le_of_same hj hj')
  | markJobCancelledStep jobID2 now =>
    cases hjx : mlookup s.jobs jobID2 with
    | none =>
      simp only [markJobCancelled, hjx] at hj'
      exact Or.inl (progress_le_of_same hj hj')
    | some job =>
      simp only [markJobCancelled, hjx] at hj'
      rw [mlookup_mset] at hj'
      by_cases hk : jobID2 = jobID
      · rw [if_pos hk] at hj'
        injection hj' with hji
        right
        rw [← hji]
        exact ⟨rfl, rfl⟩
      · rw [if_neg hk] at hj'
        exact Or.inl (progress_le_of_same hj hj')

/-- C3 amended witness: a failJob transition on the half-done job. -/
theorem progress_monotone_except_failure_reset_witness :
    StateInv sHalf ∧
    mlookup sHalf.jobs "job_1" = some jHalf ∧
    mlookup (failJob sHalf "job_1" "boom" 6).jobs "job_1" = some jHalfFailed ∧
    (jHalf.progress ≤ jHalfFailed.progress ∨
      (jHalfFailed.status = "failed" ∧ jHalfFailed.progress = 0)) :=
  ⟨by decide, by decide, by decide,
    progress_monotone_except_failure_reset (by decide)
      (Step.failJobStep sHalf "job_1" "boom" 6) "job_1" jHalf jHalfFailed
      (by decide) (by decide)⟩

/-- C8 amended: the timer-tick refresh, the per-frame upload accounting and
the completion site only ever revise a video's total-frames-expected
upward; the phase boundary at the start of indexing instead assigns it the
observed frame count outright, so that site decreases it whenever the
stored value exceeds the listing. -/
theorem totalFramesExpected_monotone_except_phase :
    (∀ (s : ServerState) (jobID : String) (frames : Int) (now : Nat)
      (k : String) (v v' : Video), mlookup s.videos k = some v →
      mlookup (refreshJobProgress s jobID frames now).videos k = some v' →
      v.totalFramesExpected ≤ v'.totalFramesExpected) ∧
    (∀ (s : ServerState) (jobID : String) (uploaded total : Int) (now : Nat)
      (k : String) (v v' : Video), mlookup s.videos k = some v →
      mlookup (markFrameUploaded s jobID uploaded total now).videos k = some v' →
      v.totalFramesExpected ≤ v'.totalFramesExpected) ∧
    (∀ (s : ServerState) (jobID : String) (now : Nat)
      (k : String) (v v' : Video), mlookup s.videos k = some v →
      mlookup (completeJob s jobID now).videos k = some v' →
      v.totalFramesExpected ≤ v'.totalFramesExpected) ∧
    (∀ (s : ServerState) (jobID : String) (total : Int) (j : Job) (v : Video),
      1 ≤ total → mlookup s.jobs jobID = some j →
      mlookup s.videos j.videoID = some v →
      (mlookup (indexFramesPhase s jobID total).videos j.videoID).map
        Video.totalFramesExpected = some total) := by
  refine ⟨?_, ?_, ?_, ?_⟩
  · intro s jobID frames now k v v' hv hv'
    cases hjx : mlookup s.jobs jobID with
    | none =>
      simp only [refreshJobProgress, hjx] at hv'
      exact le_of_eq (congrArg Video.totalFramesExpected (mlookup_inj hv hv'))
    | some job =>
      cases hvx : mlookup s.videos job.videoID with
      | none =>
        simp only [refreshJobProgress, hjx, hvx] at hv'
        exact le_of_eq (congrArg Video.totalFramesExpected (mlookup_inj hv hv'))
      | some video =>
        simp only [refreshJobProgress, hjx, hvx] at hv'
        rw [mlookup_mset] at hv'
        by_cases hk : job.videoID = k
        · rw [if_pos hk] at hv'
          have hji := Option.some.inj hv'
          rw [hk] at hvx
          have hvv : v = video := mlookup_inj hv hvx
          rw [hvv, ← hji]
          show video.totalFramesExpected ≤
            (updateProgressLocked (raiseTFE (raiseExtracted video frames) frames)
              job true).1.totalFramesExpected
          have h1 := raiseTFE_tfe_ge_old (raiseExtracted video frames) frames
          rw [raiseExtracted_tfe] at h1
          exact le_trans h1 (updateProgressLocked_tfe_mono _ job true)
        · rw [if_neg hk] at hv'
          exact le_of_eq (congrArg Video.totalFramesExpected (mlookup_inj hv hv'))
  · intro s jobID uploaded total now k v v' hv hv'
    cases hjx : mlookup s.jobs jobID with
    | none =>
      simp only [markFrameUploaded, hjx] at hv'
      exact le_of_eq (congrArg Video.totalFramesExpected (mlookup_inj hv hv'))
    | some job =>
      cases hvx : mlookup s.videos job.videoID with
      | none =>
        simp only [markFrameUploaded, hjx, hvx] at hv'
        exact le_of_eq (congrArg Video.totalFramesExpected (mlookup_inj hv hv'))
      | some video =>
        simp only [markFrameUploaded, hjx, hvx] at hv'
        rw [mlookup_mset] at hv'
        by_cases hk : job.videoID = k
        · rw [if_pos hk] at hv'
          have hji := Option.some.inj hv'
          rw [hk] at hvx
          have hvv : v = video := mlookup_inj hv hvx
          rw [hvv, ← hji]
          show video.totalFramesExpected ≤
            (updateProgressLocked
              (raiseExtracted (raiseTFE (raiseUploaded video uploaded) total) total)
              job true).1.totalFramesExpected
          have h1 := raiseTFE_tfe_ge_old (raiseUploaded video uploaded) total
          rw [raiseUploaded_tfe] at h1
          have h2 :=
            raiseExtracted_tfe (raiseTFE (raiseUploaded video uploaded) total) total
          have h3 := updateProgressLocked_tfe_mono
            (raiseExtracted (raiseTFE (raiseUploaded video uploaded) total) total)
            job true
          rw [h2] at h3
          exact le_trans h1 h3
        · rw [if_neg hk] at hv'
          exact le_of_eq (congrArg Video.totalFramesExpected (mlookup_inj hv hv'))
  · intro s jobID now k v v' hv hv'
    cases hjx : mlookup s.jobs jobID with
    | none =>
      simp only [completeJob, hjx] at hv'
      exact le_of_eq (congrArg Video.totalFramesExpected (mlookup_inj hv hv'))
    | some job =>
      cases hvx : mlookup s.videos job.videoID with
      | none =>
        simp only [completeJob, hjx, hvx] at hv'
        exact le_of_eq (congrArg Video.totalFramesExpected (mlookup_inj hv hv'))
      | some video =>
        simp only [completeJob, hjx, hvx] at hv'
        rw [mlookup_mset] at hv'
        by_cases hk : job.videoID = k
        · rw [if_pos hk] at hv'
          have hji := Option.some.inj hv'
          rw [hk] at hvx
          have hvv : v = video := mlookup_inj hv hvx
          rw [hvv, ← hji]
          show video.totalFramesExpected ≤
            (raiseTFE (raiseExtracted video video.framesUploaded)
              (raiseExtracted video video.framesUploaded).framesUploaded).totalFramesExpected
          have h1 := raiseTFE_tfe_ge_old (raiseExtracted video video.framesUploaded)
            (raiseExtracted video video.framesUploaded).framesUploaded
          rw [raiseExtracted_tfe] at h1
          exact h1
        · rw [if_neg hk] at hv'
          exact le_of_eq (congrArg Video.totalFramesExpected (mlookup_inj hv hv'))
  · intro s jobID total j v h1 hj hv
    simp only [indexFramesPhase, hj, hv]
    rw [mlookup_mset_self]
    have hpos : 0 < (phaseVideo v total).totalFramesExpected := by
      unfold phaseVideo
      dsimp only
      omega
    rw [updateProgressLocked_video_of_pos _ j true hpos]
    rfl

/-- C8 amended witness: all four sites applied to the ticked state. -/
theorem totalFramesExpected_monotone_except_phase_witness :
    vTick5.totalFramesExpected ≤ vTick5.totalFramesExpected ∧
    vTick5.totalFramesExpected ≤ vTick5M.totalFramesExpected ∧
    vTick5.totalFramesExpected ≤ vTick5C.totalFramesExpected ∧
    (mlookup (indexFramesPhase sTick5 "job_1" 3).videos jTick5.videoID).map
      Video.totalFramesExpected = some 3 :=
  ⟨totalFramesExpected_monotone_except_phase.1 sTick5 "job_1" 2 7 "vid_a"
      vTick5 vTick5 (by decide) (by decide),
    totalFramesExpected_monotone_except_phase.2.1 sTick5 "job_1" 1 2 8 "vid_a"
      vTick5 vTick5M (by decide) (by decide),
    totalFramesExpected_monotone_except_phase.2.2.1 sTick5 "job_1" 9 "vid_a"
      vTick5 vTick5C (by decide) (by decide),
    totalFramesExpected_monotone_except_phase.2.2.2 sTick5 "job_1" 3 jTick5
      vTick5 (by decide) (by decide) (by decide)⟩

/-- What one successful `markFrameUploaded` call does to the stored
records, when the counters are mid-indexing (uploaded = i of n). -/
theorem markFrameUploaded_spec (s : ServerState) (jobID : String)
    (i n : Nat) (now : Nat) (j : Job) (v : Video)
    (hj : mlookup s.jobs jobID = some j)
    (hv : mlookup s.videos j.videoID = some v)
    (hup : v.framesUploaded = ((i : Nat) : Int))
    (htfe : v.totalFramesExpected = ((n : Nat) : Int))
    (hfx : v.framesExtracted = ((n : Nat) : Int))
    (hpos : 0 < n) :
    ∃ jN vN,
      mlookup (markFrameUploaded s jobID (((i + 1 : Nat) : Int)) (((n : Nat) : Int))
        now).jobs jobID = some jN ∧
      jN.videoID = j.videoID ∧
      mlookup (markFrameUploaded s jobID (((i + 1 : Nat) : Int)) (((n : Nat) : Int))
        now).videos j.videoID = some vN ∧
      vN.framesUploaded = ((i + 1 : Nat) : Int) ∧
      vN.totalFramesExpected = ((n : Nat) : Int) ∧
      vN.framesExtracted = ((n : Nat) : Int) ∧
      vN.lastError = v.lastError := by
  have hraise : raiseExtracted (raiseTFE (raiseUploaded v (((i + 1 : Nat) : Int)))
      (((n : Nat) : Int))) (((n : Nat) : Int)) =
      { v with framesUploaded := ((i + 1 : Nat) : Int) } := by
    unfold raiseUploaded
    rw [if_pos (by rw [hup]; exact_mod_cast Nat.lt_succ_self i)]
    unfold raiseTFE
    rw [if_neg (by dsimp only; rw [htfe]; exact lt_irrefl _)]
    unfold raiseExtracted
    rw [if_neg (by dsimp only; rw [hfx]; exact lt_irrefl _)]
  simp only [markFrameUploaded, hj, hv, hraise]
  have hpos2 : 0 <
      ({ v with framesUploaded := ((i + 1 : Nat) : Int) } : Video).totalFramesExpected := by
    dsimp only
    rw [htfe]
    exact_mod_cast hpos
  rw [updateProgressLocked_video_of_pos _ j true hpos2]
  refine ⟨_, _, mlookup_mset_self _ _ _,
    (updateProgressLocked_job_fields _ j true).2.1,
    mlookup_mset_self _ _ _, rfl, ?_, ?_, rfl⟩
  · dsimp only
    exact htfe
  · dsimp only
    exact hfx

/-- The phase-boundary mutation of `indexFrames`: counters reset to 0 of n. -/
theorem indexFramesPhase_spec (s : ServerState) (jobID : String) (n : Nat)
    (j : Job) (v : Video) (hj : mlookup s.jobs jobID = some j)
    (hv : mlookup s.videos j.videoID = some v) (hpos : 0 < n) :
    ∃ jN vN,
      mlookup (indexFramesPhase s jobID (((n : Nat) : Int))).jobs jobID = some jN ∧
      jN.videoID = j.videoID ∧
      mlookup (indexFramesPhase s jobID (((n : Nat) : Int))).videos j.videoID =
        some vN ∧
      vN.framesUploaded = ((0 : Nat) : Int) ∧
      vN.totalFramesExpected = ((n : Nat) : Int) ∧
      vN.framesExtracted = ((n : Nat) : Int) ∧
      vN.lastError = v.lastError := by
  simp only [indexFramesPhase, hj, hv]
  have hpos2 : 0 < (phaseVideo v (((n : Nat) : Int))).totalFramesExpected := by
    unfold phaseVideo
    dsimp only
    omega
  rw [updateProgressLocked_video_of_pos _ j true hpos2]
  exact ⟨_, _, mlookup_mset_self _ _ _,
    (updateProgressLocked_job_fields _ j true).2.1,
    mlookup_mset_self _ _ _, rfl, rfl, rfl, rfl⟩

/-- The indexing loop when the first (and only) upload failure is frame
`k`: it attempts exactly frames `i+1 .. k`, stops with the failure, and
leaves `k-1` frames recorded as uploaded. -/
theorem uploadFrames_first_failure (jobID msg : String)
    (uploadErr : Nat → Option String) (now : Nat) (k total : Nat)
    (herr : ∀ m, uploadErr m = if m = k then some msg else none) :
    ∀ (rest : List String) (i : Nat) (s : ServerState) (j : Job) (v : Video),
      mlookup s.jobs jobID = some j →
      mlookup s.videos j.videoID = some v →
      v.framesUploaded = ((i : Nat) : Int) →
      v.totalFramesExpected = ((total : Nat) : Int) →
      v.framesExtracted = ((total : Nat) : Int) →
      i < k → k ≤ i + rest.length → k ≤ total →
      ∃ j2 v2,
        (uploadFrames s jobID rest i total (fun _ => false) uploadErr now).1 =
          IndexOutcome.failed msg ∧
        (uploadFrames s jobID rest i total (fun _ => false) uploadErr
          now).2.1 = List.range' (i + 1) (k - i) ∧
        mlookup (uploadFrames s jobID rest i total (fun _ => false) uploadErr
          now).2.2.jobs jobID = some j2 ∧
        j2.videoID = j.videoID ∧
        mlookup (uploadFrames s jobID rest i total (fun _ => false) uploadErr
          now).2.2.videos j.videoID = some v2 ∧
        v2.framesUploaded = ((k - 1 : Nat) : Int) ∧
        v2.lastError = v.lastError := by
  intro rest
  induction rest with
  | nil =>
    intro i s j v hj hv hup htfe hfx hik hkl hkt
    simp only [List.length_nil] at hkl
    omega
  | cons hd rest2 ih =>
    intro i s j v hj hv hup htfe hfx hik hkl hkt
    rw [List.length_cons] at hkl
    by_cases hik1 : i + 1 = k
    · have herr1 : uploadErr (i + 1) = some msg := by
        rw [herr, if_pos hik1]
      simp only [uploadFrames, Bool.false_eq_true, if_false, herr1]
      refine ⟨j, v, trivial, ?_, hj, rfl, hv, ?_, rfl⟩
      · have hki : k - i = 1 := by omega
        rw [hki, List.range'_one]
      · rw [hup]
        congr 1
        omega
    · have herr1 : uploadErr (i + 1) = none := by
        rw [herr, if_neg hik1]
      simp only [uploadFrames, Bool.false_eq_true, if_false, herr1]
      obtain ⟨jN, vN, hjN, hjNvid, hvN, hvNup, hvNtfe, hvNfx, hvNerr⟩ :=
        markFrameUploaded_spec s jobID i total now j v hj hv hup htfe hfx
          (by omega)
      obtain ⟨j2, v2, hq1, hq2, hq3, hq4, hq5, hq6, hq7⟩ :=
        ih (i + 1)
          (markFrameUploaded s jobID (((i + 1 : Nat) : Int)) (((total : Nat) : Int)) now)
          jN vN hjN (by rw [hjNvid]; exact hvN) hvNup hvNtfe hvNfx
          (by omega) (by omega) hkt
      refine ⟨j2, v2, hq1, ?_, hq3, ?_, ?_, hq6, ?_⟩
      · rw [hq2]
        have hki : k - i = (k - (i + 1)) + 1 := by omega
        rw [hki, List.range'_succ]
      · rw [hq4, hjNvid]
      · rw [← hjNvid]
        exact hq5
      · rw [hq7, hvNerr]

/-- C5: if the indexing collaborator fails on the upload of frame `k`
(frames processed in order, no cancellation), the whole job is aborted:
the job and the asset end "failed", frames-uploaded is `k-1`, last-error
is populated, and the attempted uploads are exactly frames `1..k` — none
after `k`. -/
theorem job_aborts_on_frame_upload_failure
    (s : ServerState) (jobID msg : String) (framePaths : List String)
    (k : Nat) (uploadErr : Nat → Option String) (now : Nat)
    (j : Job) (v : Video)
    (hj : mlookup s.jobs jobID = some j)
    (hv : mlookup s.videos j.videoID = some v)
    (hk1 : 1 ≤ k) (hk2 : k ≤ framePaths.length)
    (herr : ∀ m, uploadErr m = if m = k then some msg else none) :
    (runJobOnExtractSuccess s jobID framePaths (fun _ => false) uploadErr
      now).1 = IndexOutcome.failed msg ∧
    (runJobOnExtractSuccess s jobID framePaths (fun _ => false) uploadErr
      now).2.1 = List.range' 1 k ∧
    ((mlookup (runJobOnExtractSuccess s jobID framePaths (fun _ => false)
      uploadErr now).2.2.jobs jobID).map Job.status = some "failed") ∧
    ((mlookup (runJobOnExtractSuccess s jobID framePaths (fun _ => false)
      uploadErr now).2.2.videos j.videoID).map Video.indexStatus =
      some "failed") ∧
    ((mlookup (runJobOnExtractSuccess s jobID framePaths (fun _ => false)
      uploadErr now).2.2.videos j.videoID).map Video.framesUploaded =
      some (((k - 1 : Nat) : Int))) ∧
    ((mlookup (runJobOnExtractSuccess s jobID framePaths (fun _ => false)
      uploadErr now).2.2.videos j.videoID).map
        (fun w => w.lastError.isSome) = some true) := by
  have hn0 : ¬ framePaths.length = 0 := by omega
  obtain ⟨jP, vP, hjP, hjPvid, hvP, hP0, hPtfe, hPfx, hPerr⟩ :=
    indexFramesPhase_spec s jobID framePaths.length j v hj hv (by omega)
  obtain ⟨j2, v2, hL1, hL2, hL3, hL4, hL5, hL6, hL7⟩ :=
    uploadFrames_first_failure jobID msg uploadErr now k framePaths.length
      herr framePaths 0
      (indexFramesPhase s jobID ((framePaths.length : Nat) : Int))
      jP vP hjP (by rw [hjPvid]; exact hvP) hP0 hPtfe hPfx (by omega)
      (by omega) hk2
  rcases hE : uploadFrames
      (indexFramesPhase s jobID ((framePaths.length : Nat) : Int)) jobID
      framePaths 0 framePaths.length (fun _ => false) uploadErr now with
    ⟨out, att, sF⟩
  rw [hE] at hL1 hL2 hL3 hL5
  dsimp only at hL1 hL2 hL3 hL5
  subst hL1
  rw [hjPvid] at hL5
  simp only [runJobOnExtractSuccess, indexFrames, if_neg hn0, hE]
  have hkey : j2.videoID = j.videoID := by rw [hL4, hjPvid]
  simp only [failJob, hL3, hkey, hL5]
  refine ⟨trivial, ?_, ?_, ?_, ?_, ?_⟩
  · simpa using hL2
  · rw [mlookup_mset_self]
    rfl
  · rw [mlookup_mset_self]
    rfl
  · rw [mlookup_mset_self]
    dsimp only [Option.map]
    rw [hL6]
  · rw [mlookup_mset_self]
    rfl

/-- C5 witness: three frames with the collaborator failing on frame 2. -/
theorem job_aborts_on_frame_upload_failure_witness :
    (runJobOnExtractSuccess sStarted "job_1" ["f1", "f2", "f3"]
      (fun _ => false) (fun m => if m = 2 then some "boom" else none)
      9).1 = IndexOutcome.failed "boom" ∧
    (runJobOnExtractSuccess sStarted "job_1" ["f1", "f2", "f3"]
      (fun _ => false) (fun m => if m = 2 then some "boom" else none)
      9).2.1 = List.range' 1 2 ∧
    ((mlookup (runJobOnExtractSuccess sStarted "job_1" ["f1", "f2", "f3"]
      (fun _ => false) (fun m => if m = 2 then some "boom" else none)
      9).2.2.jobs "job_1").map Job.status = some "failed") ∧
    ((mlookup (runJobOnExtractSuccess sStarted "job_1" ["f1", "f2", "f3"]
      (fun _ => false) (fun m => if m = 2 then some "boom" else none)
      9).2.2.videos jStarted.videoID).map Video.indexStatus =
      some "failed") ∧
    ((mlookup (runJobOnExtractSuccess sStarted "job_1" ["f1", "f2", "f3"]
      (fun _ => false) (fun m => if m = 2 then some "boom" else none)
      9).2.2.videos jStarted.videoID).map Video.framesUploaded =
      some ((1 : Nat) : Int)) ∧
    ((mlookup (runJobOnExtractSuccess sStarted "job_1" ["f1", "f2", "f3"]
      (fun _ => false) (fun m => if m = 2 then some "boom" else none)
      9).2.2.videos jStarted.videoID).map
        (fun w => w.lastError.isSome) = some true) :=
  job_aborts_on_frame_upload_failure sStarted "job_1" "boom"
    ["f1", "f2", "f3"] 2 (fun m => if m = 2 then some "boom" else none) 9
    jStarted vStarted (by decide) (by decide) (by decide) (by decide)
    (fun m => rfl)

/-- C10: registering a folder path that is already tracked returns the
stored folder's id with status "already_exists", creates no new folder
record (the state is unchanged), and launches no background scan. -/
theorem registerFolder_idempotent (s : ServerState) (p : String)
    (r1 r2 : Bool) (id1 id2 : String) (h : ¬ trimSpace p = "") :
    (registerFolder (registerFolder s p r1 id1).2 p r2 id2).2 =
      (registerFolder s p r1 id1).2 ∧
    (registerFolder (registerFolder s p r1 id1).2 p r2 id2).1 =
      RegisterFolderResult.ok (folderIDOf (registerFolder s p r1 id1).1)
        "already_exists" false := by
  cases hfind : mlookup s.folderByPath p with
  | some id =>
    simp [registerFolder, h, hfind, folderIDOf]
  | none =>
    simp [registerFolder, h, hfind, mlookup_mset_self, folderIDOf]

/-- C10 witness: tracking "/videos" twice from a fresh server. -/
theorem registerFolder_idempotent_witness :
    (registerFolder (registerFolder initialState "/videos" true "fld_1").2
      "/videos" false "fld_2").2 =
      (registerFolder initialState "/videos" true "fld_1").2 ∧
    (registerFolder (registerFolder initialState "/videos" true "fld_1").2
      "/videos" false "fld_2").1 =
      RegisterFolderResult.ok
        (folderIDOf (registerFolder initialState "/videos" true "fld_1").1)
        "already_exists" false :=
  registerFolder_idempotent initialState "/videos" true false "fld_1" "fld_2"
    (by decide)

end SemanticVideo
